import Mathlib

/-!
Verification of the Online_Poll_System vote-casting and result-aggregation
subsystem (`polls/models.py`, `polls/serializers.py`, `polls/views.py`,
`polls/permissions.py`), shallowly embedded in Lean.

Times are natural numbers (seconds); machine identifiers are naturals.
The Django ORM store is a record of three tables; the Django cache
(`django.core.cache`, one LocMem store) is a record of three association
lists keyed the way `PollViewSet` builds its keys, each entry carrying its
absolute expiry instant (set-time plus timeout).
-/

deriving instance DecidableEq for Except

namespace PollSystem

abbrev Time := Nat

/-- Poll row (`polls/models.py`, class Poll).  `expires_at` is a nullable
column; `Poll.save` fills it. -/
structure Poll where
  id : Nat
  title : String
  description : String
  created_by : Nat
  created_at : Time
  expires_at : Option Time
  deriving Repr, DecidableEq

/-- Seven days, the default poll lifetime, in seconds. -/
def sevenDays : Nat := 7 * 24 * 60 * 60

/-- `Poll.save` (models.py lines 17-22): when `expires_at` is unset it is
filled with `created_at + timedelta(days=7)` before the row is written. -/
def Poll.save (p : Poll) : Poll :=
  match p.expires_at with
  | none => { p with expires_at := some (p.created_at + sevenDays) }
  | some _ => p

/-- Option row (`polls/models.py`, class Option): id, owning poll FK, text. -/
structure PollOption where
  id : Nat
  poll : Nat
  text : String
  deriving Repr, DecidableEq

/-- Vote row (`polls/models.py`, class Vote): user FK, poll FK (denormalized),
option FK, timestamp. -/
structure Vote where
  id : Nat
  user : Nat
  poll : Nat
  option : Nat
  timestamp : Time
  deriving Repr, DecidableEq

/-- The relational store: the three tables. -/
structure DB where
  polls : List Poll
  options : List PollOption
  votes : List Vote
  deriving Repr, DecidableEq

def DB.findPoll (db : DB) (pid : Nat) : Option Poll :=
  db.polls.find? (fun p => p.id == pid)

def DB.findOption (db : DB) (oid : Nat) : Option PollOption :=
  db.options.find? (fun o => o.id == oid)

/-- Number of Vote rows referencing option `oid` (the `Count("votes")`
annotation joins votes on the option FK). -/
def DB.votesForOption (db : DB) (oid : Nat) : Nat :=
  (db.votes.filter (fun v => v.option == oid)).length

/-- Number of Vote rows whose poll FK is `pid`. -/
def DB.votesForPoll (db : DB) (pid : Nat) : Nat :=
  (db.votes.filter (fun v => v.poll == pid)).length

/-- Number of Vote rows for the (user, poll) pair. -/
def DB.userVoteCount (db : DB) (uid pid : Nat) : Nat :=
  (db.votes.filter (fun v => v.user == uid && v.poll == pid)).length

def freshVoteId (db : DB) : Nat :=
  (db.votes.map Vote.id).foldl Nat.max 0 + 1

def freshOptionId (db : DB) : Nat :=
  (db.options.map PollOption.id).foldl Nat.max 0 + 1

def freshPollId (db : DB) : Nat :=
  (db.polls.map Poll.id).foldl Nat.max 0 + 1

/-- `Vote.objects.create`: the storage-level insert.  The schema-level
`UniqueConstraint(fields=["user", "poll"], name="unique_user_poll_vote")`
(models.py, Vote.Meta) makes the insert raise `IntegrityError` exactly when
a row with the same (user, poll) already exists; otherwise the row commits. -/
def DB.insertVote (db : DB) (v : Vote) : Except Unit DB :=
  if db.votes.any (fun w => w.user == v.user && w.poll == v.poll) then
    .error ()
  else
    .ok { db with votes := db.votes ++ [v] }

/-- One row of the grouped results query (`values("id", "text", "vote_count")`). -/
structure ResultRow where
  id : Nat
  text : String
  vote_count : Nat
  deriving Repr, DecidableEq

/-- The cached results payload built by `PollViewSet.results.fetch_results`. -/
structure ResultsSnapshot where
  poll_id : Nat
  title : String
  description : String
  total_votes : Nat
  results : List ResultRow
  deriving Repr, DecidableEq

/-- One serialized option of `PollSerializer.options` (OptionSerializer:
id, text, votes_count with the `.count()` fallback). -/
def serializeOption (db : DB) (o : PollOption) : ResultRow :=
  { id := o.id, text := o.text, vote_count := db.votesForOption o.id }

/-- One serialized poll of the list endpoint (PollSerializer fields; the
`total_votes` field is skipped by DRF when the attribute is absent, as it is
on the un-annotated list queryset). -/
structure PollOut where
  id : Nat
  title : String
  description : String
  created_by : Nat
  created_at : Time
  expires_at : Option Time
  options : List ResultRow
  deriving Repr, DecidableEq

def serializePoll (db : DB) (p : Poll) : PollOut :=
  { id := p.id, title := p.title, description := p.description,
    created_by := p.created_by, created_at := p.created_at,
    expires_at := p.expires_at,
    options := (db.options.filter (fun o => o.poll == p.id)).map (serializeOption db) }

/-- An association list cache segment: key, value, absolute expiry instant. -/
abbrev CacheMap (α β : Type) : Type := List (α × β × Time)

/-- `cache.get(key)`: the stored value while `now` is before its expiry. -/
def cacheGet {α β : Type} [DecidableEq α] (m : CacheMap α β) (now : Time) (k : α) :
    Option β :=
  match m.find? (fun e => decide (e.1 = k)) with
  | some (_, v, exp) => if now < exp then some v else none
  | none => none

/-- `cache.set(key, value, timeout)`: store with expiry `now + timeout`. -/
def cacheSet {α β : Type} [DecidableEq α] (m : CacheMap α β) (k : α) (v : β)
    (now timeout : Time) : CacheMap α β :=
  (k, v, now + timeout) :: m.filter (fun e => !(decide (e.1 = k)))

/-- `cache.delete(key)`: unconditional eviction. -/
def cacheDelete {α β : Type} [DecidableEq α] (m : CacheMap α β) (k : α) :
    CacheMap α β :=
  m.filter (fun e => !(decide (e.1 = k)))

/-- The single LocMem cache store, split by the three key shapes the view
uses: `poll_results:<pid>`, `user_vote:<pid>:<uid>`, `poll_list:page:<n>`. -/
structure Cache where
  results : CacheMap Nat ResultsSnapshot
  userVote : CacheMap (Nat × Nat) Nat
  listPages : CacheMap Nat (List PollOut)
  deriving Repr, DecidableEq

/-- `cache.clear()` empties the whole store. -/
def Cache.empty : Cache := { results := [], userVote := [], listPages := [] }

/-- Full system state: database plus cache. -/
structure State where
  db : DB
  cache : Cache
  deriving Repr, DecidableEq

/-- `PollViewSet.POLL_RESULTS_TIMEOUT` (views.py line 24). -/
def POLL_RESULTS_TIMEOUT : Time := 30

/-- `PollViewSet.POLL_LIST_TIMEOUT` (views.py line 25). -/
def POLL_LIST_TIMEOUT : Time := 300

/-- `REST_FRAMEWORK["PAGE_SIZE"]` (settings.py). -/
def PAGE_SIZE : Nat := 10

/-- Outcome of `POST /polls/{pk}/vote/` (views.py `vote` plus
`VoteSerializer.validate`/`create`). -/
inductive VoteOutcome where
  | created (votedPoll : Nat) (votedOption : Nat)
  | pathPollNotFound
  | optionNotFound
  | pollExpired
  | alreadyVoted
  | danglingOptionFk
  deriving Repr, DecidableEq

/-- HTTP status of each vote outcome: 201 on success, DRF ValidationError
gives 400, `get_object` on a missing pk gives 404.  `danglingOptionFk`
cannot arise while the option's poll FK is intact. -/
def VoteOutcome.status : VoteOutcome → Nat
  | .created _ _ => 201
  | .pathPollNotFound => 404
  | .optionNotFound => 400
  | .pollExpired => 400
  | .alreadyVoted => 400
  | .danglingOptionFk => 500

/-- The user-facing message carried by each vote outcome, verbatim from
views.py and serializers.py. -/
def VoteOutcome.message : VoteOutcome → String
  | .created _ _ => "Vote cast successfully."
  | .pathPollNotFound => "No Poll matches the given query."
  | .optionNotFound => "Option not found."
  | .pollExpired => "Poll has expired."
  | .alreadyVoted => "User has already voted in this poll."
  | .danglingOptionFk => ""

/-- The serializer guard `option.poll.expires_at and timezone.now() >=
option.poll.expires_at` (serializers.py line 133): a null expiry skips the
check. -/
def expiredGuard (p : Poll) (now : Time) : Bool :=
  match p.expires_at with
  | some e => e ≤ now
  | none => false

/-- `PollViewSet.vote` (views.py lines 87-103) composed with
`VoteSerializer.validate` (serializers.py lines 125-138) and
`VoteSerializer.create` (serializers.py lines 148-153):
1. `get_object` resolves the path pk, else 404;
2. the option id is resolved, else a 400 validation error;
3. expiry is checked against the resolved option's poll;
4. the vote row (user, option's poll, option) is inserted, the unique
   constraint's IntegrityError translating to the already-voted error;
5. on success the results-cache entry of the path poll is deleted and the
   per-user vote cache entry of (path poll, user) is set for 30 seconds. -/
def castVote (st : State) (now : Time) (uid pathPid oid : Nat) :
    VoteOutcome × State :=
  match st.db.findPoll pathPid with
  | none => (.pathPollNotFound, st)
  | some pathPoll =>
    match st.db.findOption oid with
    | none => (.optionNotFound, st)
    | some opt =>
      match st.db.findPoll opt.poll with
      | none => (.danglingOptionFk, st)
      | some optPoll =>
        if expiredGuard optPoll now then (.pollExpired, st)
        else
          match st.db.insertVote
              { id := freshVoteId st.db, user := uid, poll := optPoll.id,
                option := opt.id, timestamp := now } with
          | .error _ => (.alreadyVoted, st)
          | .ok db2 =>
            let cache2 : Cache :=
              { results := cacheDelete st.cache.results pathPoll.id,
                userVote := cacheSet st.cache.userVote (pathPoll.id, uid) opt.id
                  now POLL_RESULTS_TIMEOUT,
                listPages := st.cache.listPages }
            (.created optPoll.id opt.id, { db := db2, cache := cache2 })

/-- Outcome of `POST /polls/{pk}/options/` (views.py `options`). -/
inductive AddOptionOutcome where
  | created (optionId : Nat)
  | pollNotFound
  | pollExpired
  | invalidText
  | nullExpiry
  deriving Repr, DecidableEq

def AddOptionOutcome.status : AddOptionOutcome → Nat
  | .created _ => 201
  | .pollNotFound => 404
  | .pollExpired => 400
  | .invalidText => 400
  | .nullExpiry => 500

def AddOptionOutcome.message : AddOptionOutcome → String
  | .pollExpired => "Poll expired."
  | _ => ""

/-- `AddOptionSerializer` text validation: a required CharField of max
length 255 that rejects blank input. -/
def validOptionText (t : String) : Bool :=
  t.length != 0 && t.length ≤ 255

/-- `PollViewSet.options` (views.py lines 72-85): resolve the path poll
(404 when absent), reject when `now >= poll.expires_at` (a null expiry,
impossible after `Poll.save`, would raise in Python), validate the text,
append the option row and delete the poll's results-cache entry. -/
def addOption (st : State) (now : Time) (pid : Nat) (text : String) :
    AddOptionOutcome × State :=
  match st.db.findPoll pid with
  | none => (.pollNotFound, st)
  | some poll =>
    match poll.expires_at with
    | none => (.nullExpiry, st)
    | some e =>
      if e ≤ now then (.pollExpired, st)
      else if !validOptionText text then (.invalidText, st)
      else
        let o : PollOption := { id := freshOptionId st.db, poll := poll.id, text := text }
        let db2 := { st.db with options := st.db.options ++ [o] }
        let cache2 := { st.cache with results := cacheDelete st.cache.results poll.id }
        (.created o.id, { db := db2, cache := cache2 })

/-- `CreatePollSerializer` title validation: a required CharField of max
length 255 rejecting blank input. -/
def validTitle (t : String) : Bool :=
  t.length != 0 && t.length ≤ 255

/-- `POST /polls/` (views.py `perform_create` with
`CreatePollSerializer.create`): create the poll (running `Poll.save`, which
defaults the expiry), bulk-create its options, then `cache.clear()` the
whole store.  Returns the new poll id, or 400 on an invalid title. -/
def createPoll (st : State) (now : Time) (uid : Nat) (title description : String)
    (expires_at : Option Time) (optionTexts : List String) :
    Except Nat (Nat × State) :=
  if !validTitle title then .error 400
  else
    let pid := freshPollId st.db
    let poll := Poll.save
      { id := pid, title := title, description := description,
        created_by := uid, created_at := now, expires_at := expires_at }
    let base := freshOptionId st.db
    let opts := optionTexts.enum.map
      (fun it => { id := base + it.1, poll := pid, text := it.2 : PollOption })
    let db2 := { st.db with polls := st.db.polls ++ [poll],
                            options := st.db.options ++ opts }
    .ok (pid, { db := db2, cache := Cache.empty })

/-- The payload of `GET /polls/{pk}/results/`: the (possibly cached)
aggregate snapshot plus, for an authenticated requester only, the
`user_vote` field. -/
structure ResultsResponse where
  snapshot : ResultsSnapshot
  user_vote : Option (Option Nat)
  deriving Repr, DecidableEq

/-- The inner `fetch_results` closure of `PollViewSet.results` (views.py
lines 111-124): the poll's options annotated with their vote counts;
`total_votes` is the sum of the per-option counts. -/
def fetch_results (db : DB) (p : Poll) : ResultsSnapshot :=
  let rows := (db.options.filter (fun o => o.poll == p.id)).map (serializeOption db)
  { poll_id := p.id, title := p.title, description := p.description,
    total_votes := (rows.map ResultRow.vote_count).sum, results := rows }

/-- `PollViewSet.results` (views.py lines 105-131): resolve the poll (404
when absent); `get_or_set_cache` on the results key with the 30-second
timeout; for an authenticated requester read `user_vote` from the per-user
cache entry, defaulting to null. -/
def results (st : State) (now : Time) (requester : Option Nat) (pid : Nat) :
    Except Nat (ResultsResponse × State) :=
  match st.db.findPoll pid with
  | none => .error 404
  | some poll =>
    let hit := cacheGet st.cache.results now poll.id
    let snap := match hit with
      | some s => s
      | none => fetch_results st.db poll
    let cache2 := match hit with
      | some _ => st.cache
      | none => { st.cache with
          results := cacheSet st.cache.results poll.id snap now POLL_RESULTS_TIMEOUT }
    let uv := requester.map (fun u => cacheGet cache2.userVote now (poll.id, u))
    .ok ({ snapshot := snap, user_vote := uv }, { st with cache := cache2 })

/-- `order_by("-created_at")` on the list queryset. -/
def sortByCreatedDesc (ps : List Poll) : List Poll :=
  ps.mergeSort (fun a b => b.created_at ≤ a.created_at)

/-- A page of DRF's PageNumberPagination with the configured page size. -/
def pageOf {α : Type} (l : List α) (page : Nat) : List α :=
  (l.drop ((page - 1) * PAGE_SIZE)).take PAGE_SIZE

/-- `PollViewSet.list` (views.py lines 136-147): the cached page when
present; otherwise the requested page of the full poll table — the class
queryset is `Poll.objects.all()` ordered by descending creation time, with
no expiry filter — serialized and stored for 300 seconds.  (The `cache_page`
decorator adds a second per-URL response cache in the same store with the
same timeout; the payload it captures is the one modelled here.) -/
def listPolls (st : State) (now : Time) (page : Nat) : List PollOut × State :=
  match cacheGet st.cache.listPages now page with
  | some pg => (pg, st)
  | none =>
    let pg := (pageOf (sortByCreatedDesc st.db.polls) page).map (serializePoll st.db)
    (pg, { st with cache := { st.cache with
       listPages := cacheSet st.cache.listPages page pg now POLL_LIST_TIMEOUT } })

/-- The authenticated principal handed over by the auth layer. -/
inductive Principal where
  | anonymous
  | user (id : Nat) (is_staff is_superuser : Bool) (role : String)
  deriving Repr, DecidableEq

def Principal.is_authenticated : Principal → Bool
  | .anonymous => false
  | .user _ _ _ _ => true

/-- ASCII lowercasing of one character, as Python's `str.lower` does on the
role strings in play. -/
def lowerChar (c : Char) : Char :=
  if c.isUpper then Char.ofNat (c.toNat + 32) else c

/-- ASCII lowercasing of a string. -/
def toLowerStr (s : String) : String := String.mk (s.data.map lowerChar)

/-- `IsAdminOrReadOnly.has_permission` (polls/permissions.py): safe methods
pass; otherwise the user must be authenticated and staff, superuser, or
carry an admin role (the Roles-enum branch and the string fallback both
amount to a case-insensitive "admin" comparison). -/
def isAdminOrReadOnly (p : Principal) (methodSafe : Bool) : Bool :=
  if methodSafe then true
  else
    match p with
    | .anonymous => false
    | .user _ staff su role => staff || su || toLowerStr role == "admin"

inductive Perm where
  | allowAny
  | isAuthenticated
  | adminOrReadOnly
  deriving Repr, DecidableEq

def Perm.passes : Perm → Principal → Bool → Bool
  | .allowAny, _, _ => true
  | .isAuthenticated, p, _ => p.is_authenticated
  | .adminOrReadOnly, p, safe => isAdminOrReadOnly p safe

/-- `PollViewSet.get_permissions` (views.py lines 152-155): list and
results are open; every other action — create, options, vote included —
is guarded only by IsAuthenticated. -/
def get_permissions (action : String) : List Perm :=
  if action == "list" || action == "results" then [.allowAny]
  else [.isAuthenticated]

/-- DRF's permission gate: every permission returned by `get_permissions`
must pass for the request to proceed. -/
def checkPermissions (action : String) (p : Principal) (methodSafe : Bool) : Bool :=
  (get_permissions action).all (fun perm => perm.passes p methodSafe)

/-- The class attribute `permission_classes = [IsAuthenticated,
IsAdminOrReadOnly]` (views.py line 29), which the `get_permissions`
override never consults. -/
def declared_permission_classes : List Perm := [.isAuthenticated, .adminOrReadOnly]

/-- Whether the character list `s` starts with `pat`. -/
def charsLead : List Char → List Char → Bool
  | [], _ => true
  | _ :: _, [] => false
  | a :: as, b :: bs => a == b && charsLead as bs

/-- Whether `pat` occurs somewhere inside `s`. -/
def charsSub (pat : List Char) : List Char → Bool
  | [] => charsLead pat []
  | c :: rest => charsLead pat (c :: rest) || charsSub pat rest

/-- Substring containment on strings, used to state the error-message
clauses of the spec. -/
def strContains (s pat : String) : Bool :=
  charsSub pat.data s.data

/-- A sequence of vote requests by one user against one request path,
each request being an instant and a submitted option id, executed in
order; returns the outcome of each request and the final state. -/
def runVoteSeq (st : State) (uid pid : Nat) :
    List (Time × Nat) → List VoteOutcome × State
  | [] => ([], st)
  | r :: rest =>
    let step := castVote st r.1 uid pid r.2
    let next := runVoteSeq step.2 uid pid rest
    (step.1 :: next.1, next.2)

/-- The referential facts the schema guarantees for the tables touched by
the aggregation query: option primary keys are unique, and every vote's
option FK resolves, with the vote's denormalized poll FK agreeing with the
option's poll (the serializer always writes `poll = option.poll`). -/
structure DBWF (db : DB) : Prop where
  optionIdsNodup : (db.options.map PollOption.id).Nodup
  voteFk : ∀ v ∈ db.votes, ∃ o, o ∈ db.options ∧ o.id = v.option ∧ o.poll = v.poll

/-- Concrete poll fixture: poll 1, active until instant 1000. -/
def exPoll1 : Poll :=
  { id := 1, title := "Favorite Food", description := "Pick one",
    created_by := 9, created_at := 0, expires_at := some 1000 }

/-- Concrete poll fixture: poll 2, active until instant 1000. -/
def exPoll2 : Poll :=
  { id := 2, title := "Other Poll", description := "",
    created_by := 9, created_at := 5, expires_at := some 1000 }

/-- Option 10 of poll 1. -/
def exOpt10 : PollOption := { id := 10, poll := 1, text := "Rice" }

/-- Option 11 of poll 1. -/
def exOpt11 : PollOption := { id := 11, poll := 1, text := "Beans" }

/-- Option 20 of poll 2. -/
def exOpt20 : PollOption := { id := 20, poll := 2, text := "Other Option" }

/-- Two active polls, three options, no votes, empty cache. -/
def exState : State :=
  { db := { polls := [exPoll1, exPoll2], options := [exOpt10, exOpt11, exOpt20],
            votes := [] },
    cache := Cache.empty }

/-- `exState` after `GET /polls/2/results/` at instant 0: poll 2's empty
snapshot is now cached until instant 30. -/
def exStateCached : State :=
  match results exState 0 none 2 with
  | .ok (_, st) => st
  | .error _ => exState

/-- `exStateCached` after user 7 posts option 20 (an option of poll 2) to
`POST /polls/1/vote/` at instant 1. -/
def exStateCrossVoted : State :=
  (castVote exStateCached 1 7 1 20).2

/-- A poll that expired at instant 10. -/
def exExpiredPoll : Poll :=
  { id := 1, title := "Expired Poll", description := "",
    created_by := 9, created_at := 0, expires_at := some 10 }

/-- A store holding only the expired poll with one option, empty cache. -/
def exExpiredState : State :=
  { db := { polls := [exExpiredPoll],
            options := [{ id := 10, poll := 1, text := "Choice A" }],
            votes := [] },
    cache := Cache.empty }

/-- Two active polls where user 7 has already voted in poll 2. -/
def exVotedState : State :=
  { db := { polls := [exPoll1, exPoll2], options := [exOpt10, exOpt11, exOpt20],
            votes := [{ id := 1, user := 7, poll := 2, option := 20, timestamp := 0 }] },
    cache := Cache.empty }

/-- Observer: the `total_votes` figure a `GET /polls/{pid}/results/` request
at instant `now` reports (none when the poll is absent). -/
def resultsTotal (st : State) (now : Time) (pid : Nat) : Option Nat :=
  match results st now none pid with
  | .ok (r, _) => some r.snapshot.total_votes
  | .error _ => none

/-- The state after an admin creates a fresh poll on `exStateCached`
(whose cache holds poll 2's results snapshot). -/
def cpState : State :=
  match createPoll exStateCached 3 9 ("New Poll") ("") none [("A"), ("B")] with
  | .ok (_, s) => s
  | .error _ => exStateCached

/-- The response of `GET /polls/2/results/` by user 7 on `exVotedState`. -/
def c10resp : ResultsResponse :=
  match results exVotedState 0 (some 7) 2 with
  | .ok (r, _) => r
  | .error _ => { snapshot := fetch_results exVotedState.db exPoll2, user_vote := none }

/-- The state after `GET /polls/2/results/` by user 7 on `exVotedState`. -/
def c10st2 : State :=
  match results exVotedState 0 (some 7) 2 with
  | .ok (_, s) => s
  | .error _ => exVotedState

end PollSystem

namespace PollSystem

theorem find_delete_ne {α β : Type} [DecidableEq α] (m : CacheMap α β) (k k2 : α)
    (h : k2 ≠ k) :
    (cacheDelete m k).find? (fun e => decide (e.1 = k2))
      = m.find? (fun e => decide (e.1 = k2)) := by
  induction m with
  | nil => rfl
  | cons e m ih =>
    by_cases he : e.1 = k
    · have hne2 : ¬ e.1 = k2 := by
        intro hh
        apply h
        rw [← hh, he]
      have hdrop : cacheDelete (e :: m) k = cacheDelete m k := by
        simp [cacheDelete, List.filter_cons, he]
      rw [hdrop, ih, List.find?_cons_of_neg m (by simpa using hne2)]
    · have hkeep : cacheDelete (e :: m) k = e :: cacheDelete m k := by
        simp [cacheDelete, List.filter_cons, he]
      rw [hkeep]
      by_cases hk2 : e.1 = k2
      · rw [List.find?_cons_of_pos _ (by simpa using hk2),
          List.find?_cons_of_pos _ (by simpa using hk2)]
      · rw [List.find?_cons_of_neg _ (by simpa using hk2),
          List.find?_cons_of_neg _ (by simpa using hk2), ih]

theorem cacheGet_delete_self {α β : Type} [DecidableEq α] (m : CacheMap α β)
    (t : Time) (k : α) : cacheGet (cacheDelete m k) t k = none := by
  unfold cacheGet
  cases hf : (cacheDelete m k).find? (fun e => decide (e.1 = k)) with
  | none => rfl
  | some e =>
    exfalso
    have hp := List.find?_some hf
    have hm := List.mem_of_find?_eq_some hf
    have hq := List.of_mem_filter hm
    rw [of_decide_eq_true hp] at hq
    simp at hq

theorem cacheGet_delete_ne {α β : Type} [DecidableEq α] (m : CacheMap α β)
    (t : Time) (k k2 : α) (h : k2 ≠ k) :
    cacheGet (cacheDelete m k) t k2 = cacheGet m t k2 := by
  unfold cacheGet
  rw [find_delete_ne m k k2 h]

theorem length_filter_or {α : Type} (l : List α) (p q : α → Bool)
    (hdisj : ∀ x, p x = true → q x = false) :
    (l.filter (fun x => p x || q x)).length
      = (l.filter p).length + (l.filter q).length := by
  induction l with
  | nil => simp
  | cons a l ih =>
    by_cases hp : p a = true
    · have hq := hdisj a hp
      simp [List.filter_cons, hp, hq, ih]
      omega
    · have hp2 : p a = false := Bool.eq_false_iff.mpr hp
      by_cases hq : q a = true
      · simp [List.filter_cons, hp2, hq, ih]
        omega
      · have hq2 : q a = false := Bool.eq_false_iff.mpr hq
        simp [List.filter_cons, hp2, hq2, ih]

theorem sum_counts {α : Type} (l : List α) (key : α → Nat) (ks : List Nat)
    (hnd : ks.Nodup) :
    (ks.map (fun k => (l.filter (fun x => key x == k)).length)).sum
      = (l.filter (fun x => ks.contains (key x))).length := by
  induction ks with
  | nil => simp
  | cons k ks ih =>
    have hk : k ∉ ks := (List.nodup_cons.mp hnd).1
    have ih2 := ih (List.nodup_cons.mp hnd).2
    simp only [List.map_cons, List.sum_cons, ih2]
    have hcong : l.filter (fun x => (k :: ks).contains (key x))
        = l.filter (fun x => (key x == k) || ks.contains (key x)) := by
      apply List.filter_congr
      intro x _
      by_cases hxk : key x = k <;> simp [List.contains_cons, hxk]
    rw [hcong, length_filter_or]
    intro x hx
    have hxk : key x = k := eq_of_beq hx
    rw [hxk]
    cases hc : ks.contains k with
    | false => rfl
    | true =>
      exfalso
      exact hk (List.mem_of_elem_eq_true hc)

end PollSystem

namespace PollSystem

theorem option_unique_by_id {db : DB} (hnd : (db.options.map PollOption.id).Nodup)
    {o o2 : PollOption} (ho : o ∈ db.options) (ho2 : o2 ∈ db.options)
    (h : o.id = o2.id) : o = o2 :=
  List.inj_on_of_nodup_map hnd ho ho2 h

theorem vote_option_mem_iff (db : DB) (hwf : DBWF db) (pid : Nat)
    {v : Vote} (hv : v ∈ db.votes) :
    ((db.options.filter (fun o => o.poll == pid)).map PollOption.id).contains v.option
      = (v.poll == pid) := by
  obtain ⟨o, ho, hoid, hopoll⟩ := hwf.voteFk v hv
  by_cases hp : v.poll = pid
  · have hmemf : o ∈ db.options.filter (fun o => o.poll == pid) :=
      List.mem_filter.mpr ⟨ho, by simp [hopoll, hp]⟩
    have hmem : v.option ∈ (db.options.filter (fun o => o.poll == pid)).map PollOption.id :=
      List.mem_map.mpr ⟨o, hmemf, hoid⟩
    simp [hp, List.contains, hmem]
  · have hnotmem : v.option ∉ (db.options.filter (fun o => o.poll == pid)).map PollOption.id := by
      intro hmem
      obtain ⟨o2, ho2f, ho2id⟩ := List.mem_map.mp hmem
      have ho2 : o2 ∈ db.options := (List.mem_filter.mp ho2f).1
      have ho2p : o2.poll = pid := by
        have := (List.mem_filter.mp ho2f).2
        simpa using this
      have : o = o2 := option_unique_by_id hwf.optionIdsNodup ho ho2 (by rw [hoid, ho2id])
      apply hp
      rw [← hopoll, this, ho2p]
    simp [hp, List.contains, hnotmem]

/-- Aggregation core: the total the grouped query reports equals the number
of Vote rows whose poll FK is the poll, for any store the schema permits. -/
theorem fetch_results_total (db : DB) (hwf : DBWF db) (p : Poll) :
    (fetch_results db p).total_votes = db.votesForPoll p.id := by
  show (((db.options.filter (fun o => o.poll == p.id)).map
      (serializeOption db)).map ResultRow.vote_count).sum
    = db.votesForPoll p.id
  rw [List.map_map]
  have hstep : ((db.options.filter (fun o => o.poll == p.id)).map
      (ResultRow.vote_count ∘ serializeOption db))
      = (((db.options.filter (fun o => o.poll == p.id)).map PollOption.id).map
          (fun k => (db.votes.filter (fun v => v.option == k)).length)) := by
    rw [List.map_map]
    rfl
  rw [hstep]
  have hnd : ((db.options.filter (fun o => o.poll == p.id)).map PollOption.id).Nodup :=
    List.Nodup.sublist (List.Sublist.map PollOption.id (List.filter_sublist _))
      hwf.optionIdsNodup
  rw [sum_counts db.votes Vote.option _ hnd]
  unfold DB.votesForPoll
  congr 1
  apply List.filter_congr
  intro v hv
  exact vote_option_mem_iff db hwf p.id hv

end PollSystem

namespace PollSystem

theorem findPoll_id {db : DB} {pid : Nat} {p : Poll}
    (h : db.findPoll pid = some p) : p.id = pid := by
  unfold DB.findPoll at h
  have h2 := List.find?_some h
  exact eq_of_beq h2

theorem findPoll_mem {db : DB} {pid : Nat} {p : Poll}
    (h : db.findPoll pid = some p) : p ∈ db.polls :=
  List.mem_of_find?_eq_some h

theorem findOption_id {db : DB} {oid : Nat} {o : PollOption}
    (h : db.findOption oid = some o) : o.id = oid := by
  unfold DB.findOption at h
  have h2 := List.find?_some h
  exact eq_of_beq h2

theorem findOption_mem {db : DB} {oid : Nat} {o : PollOption}
    (h : db.findOption oid = some o) : o ∈ db.options :=
  List.mem_of_find?_eq_some h

theorem castVote_success (st : State) (now : Time) (uid pid oid : Nat)
    {pathp q : Poll} {o : PollOption} {e : Time}
    (hpath : st.db.findPoll pid = some pathp)
    (ho : st.db.findOption oid = some o)
    (hq : st.db.findPoll o.poll = some q)
    (he : q.expires_at = some e) (hne : now < e)
    (hnv : st.db.votes.any (fun w => w.user == uid && w.poll == q.id) = false) :
    castVote st now uid pid oid =
      (VoteOutcome.created q.id o.id,
       { db := { polls := st.db.polls, options := st.db.options,
                 votes := st.db.votes ++
                   [{ id := freshVoteId st.db, user := uid, poll := q.id,
                      option := o.id, timestamp := now }] },
         cache := { results := cacheDelete st.cache.results pathp.id,
                    userVote := cacheSet st.cache.userVote (pathp.id, uid) o.id now
                      POLL_RESULTS_TIMEOUT,
                    listPages := st.cache.listPages } }) := by
  have hg : expiredGuard q now = false := by
    unfold expiredGuard
    rw [he]
    exact decide_eq_false (Nat.not_le.mpr hne)
  simp only [castVote, hpath, ho, hq, hg, DB.insertVote, hnv]
  rfl

theorem castVote_alreadyVoted (st : State) (now : Time) (uid pid oid : Nat)
    {pathp q : Poll} {o : PollOption} {e : Time}
    (hpath : st.db.findPoll pid = some pathp)
    (ho : st.db.findOption oid = some o)
    (hq : st.db.findPoll o.poll = some q)
    (he : q.expires_at = some e) (hne : now < e)
    (hv : st.db.votes.any (fun w => w.user == uid && w.poll == q.id) = true) :
    castVote st now uid pid oid = (VoteOutcome.alreadyVoted, st) := by
  have hg : expiredGuard q now = false := by
    unfold expiredGuard
    rw [he]
    exact decide_eq_false (Nat.not_le.mpr hne)
  simp only [castVote, hpath, ho, hq, hg, DB.insertVote, hv]
  rfl

theorem castVote_expired (st : State) (now : Time) (uid pid oid : Nat)
    {pathp q : Poll} {o : PollOption} {e : Time}
    (hpath : st.db.findPoll pid = some pathp)
    (ho : st.db.findOption oid = some o)
    (hq : st.db.findPoll o.poll = some q)
    (he : q.expires_at = some e) (hge : e ≤ now) :
    castVote st now uid pid oid = (VoteOutcome.pollExpired, st) := by
  have hg : expiredGuard q now = true := by
    unfold expiredGuard
    rw [he]
    simpa using hge
  simp only [castVote, hpath, ho, hq, hg]
  rfl

theorem addOption_success (st : State) (now : Time) (pid : Nat) (text : String)
    {p : Poll} {e : Time}
    (hp : st.db.findPoll pid = some p)
    (he : p.expires_at = some e) (hne : now < e)
    (ht : validOptionText text = true) :
    addOption st now pid text =
      (AddOptionOutcome.created (freshOptionId st.db),
       { db := { polls := st.db.polls, options := st.db.options ++
                   [{ id := freshOptionId st.db, poll := p.id, text := text }],
                 votes := st.db.votes },
         cache := { results := cacheDelete st.cache.results p.id,
                    userVote := st.cache.userVote,
                    listPages := st.cache.listPages } }) := by
  have hlt : ¬ e ≤ now := Nat.not_le.mpr hne
  simp only [addOption, hp, he, if_neg hlt, ht]
  rfl

theorem addOption_expired (st : State) (now : Time) (pid : Nat) (text : String)
    {p : Poll} {e : Time}
    (hp : st.db.findPoll pid = some p)
    (he : p.expires_at = some e) (hge : e ≤ now) :
    addOption st now pid text = (AddOptionOutcome.pollExpired, st) := by
  simp only [addOption, hp, he, if_pos hge]

end PollSystem

namespace PollSystem

theorem foldl_max_le_init (l : List Nat) : ∀ a : Nat, a ≤ l.foldl Nat.max a := by
  induction l with
  | nil => intro a; exact Nat.le_refl a
  | cons b l ih =>
    intro a
    exact Nat.le_trans (Nat.le_max_left a b) (ih (Nat.max a b))

theorem mem_le_foldl_max (l : List Nat) : ∀ a x : Nat, x ∈ l → x ≤ l.foldl Nat.max a := by
  induction l with
  | nil => intro a x hx; cases hx
  | cons b l ih =>
    intro a x hx
    cases hx with
    | head =>
      exact Nat.le_trans (Nat.le_max_right a b) (foldl_max_le_init l (Nat.max a b))
    | tail _ h => exact ih (Nat.max a b) x h

theorem freshOptionId_not_mem (db : DB) :
    freshOptionId db ∉ db.options.map PollOption.id := by
  intro hmem
  have := mem_le_foldl_max (db.options.map PollOption.id) 0 (freshOptionId db) hmem
  unfold freshOptionId at *
  omega

theorem userVoteCount_zero_any_false {db : DB} {uid pid : Nat}
    (h : db.userVoteCount uid pid = 0) :
    db.votes.any (fun w => w.user == uid && w.poll == pid) = false := by
  unfold DB.userVoteCount at h
  have hnil := List.eq_nil_of_length_eq_zero h
  rw [List.any_eq_false]
  intro w hw
  intro hcontra
  have : w ∈ db.votes.filter (fun v => v.user == uid && v.poll == pid) :=
    List.mem_filter.mpr ⟨hw, hcontra⟩
  rw [hnil] at this
  cases this

theorem votesForPoll_append (db : DB) (ps : List Poll) (os : List PollOption)
    (v : Vote) (pid : Nat) (h : v.poll = pid) :
    DB.votesForPoll { polls := ps, options := os, votes := db.votes ++ [v] } pid
      = db.votesForPoll pid + 1 := by
  unfold DB.votesForPoll
  rw [List.filter_append, List.length_append]
  simp [h]

theorem userVoteCount_append_match (db : DB) (ps : List Poll) (os : List PollOption)
    (v : Vote) (uid pid : Nat) (hu : v.user = uid) (h : v.poll = pid) :
    DB.userVoteCount { polls := ps, options := os, votes := db.votes ++ [v] } uid pid
      = db.userVoteCount uid pid + 1 := by
  unfold DB.userVoteCount
  rw [List.filter_append, List.length_append]
  simp [h, hu]

theorem votesForOption_append (db : DB) (ps : List Poll) (os : List PollOption)
    (v : Vote) (oid : Nat) (h : v.option = oid) :
    DB.votesForOption { polls := ps, options := os, votes := db.votes ++ [v] } oid
      = db.votesForOption oid + 1 := by
  unfold DB.votesForOption
  rw [List.filter_append, List.length_append]
  simp [h]

theorem DBWF_append_vote {db : DB} (hwf : DBWF db) (ps : List Poll) {v : Vote}
    {o : PollOption} (ho : o ∈ db.options) (hid : o.id = v.option)
    (hpl : o.poll = v.poll) :
    DBWF { polls := ps, options := db.options, votes := db.votes ++ [v] } := by
  constructor
  · exact hwf.optionIdsNodup
  · intro w hw
    rcases List.mem_append.mp hw with h | h
    · exact hwf.voteFk w h
    · have : w = v := by simpa using h
      subst this
      exact ⟨o, ho, hid, hpl⟩

theorem DBWF_append_option {db : DB} (hwf : DBWF db) (ps : List Poll)
    {newo : PollOption} (hfresh : newo.id ∉ db.options.map PollOption.id) :
    DBWF { polls := ps, options := db.options ++ [newo], votes := db.votes } := by
  constructor
  · show ((db.options ++ [newo]).map PollOption.id).Nodup
    rw [List.map_append]
    apply List.Nodup.append hwf.optionIdsNodup (List.nodup_singleton _)
    intro x hx hx2
    have : x = newo.id := by simpa using hx2
    subst this
    exact hfresh hx
  · intro w hw
    obtain ⟨o, ho, hid, hpl⟩ := hwf.voteFk w hw
    exact ⟨o, List.mem_append_left _ ho, hid, hpl⟩

theorem runVoteSeq_all_already (uid pid : Nat) (p : Poll) (e : Time) :
    ∀ (reqs : List (Time × Nat)) (st : State),
    st.db.findPoll pid = some p →
    p.expires_at = some e →
    (∀ r ∈ reqs, r.1 < e ∧ ((st.db.findOption r.2).map PollOption.poll = some pid)) →
    st.db.votes.any (fun w => w.user == uid && w.poll == p.id) = true →
    runVoteSeq st uid pid reqs
      = (reqs.map (fun _ => VoteOutcome.alreadyVoted), st) := by
  intro reqs
  induction reqs with
  | nil =>
    intro st _ _ _ _
    rfl
  | cons r rest ih =>
    intro st hp hpe hvalid hv
    obtain ⟨hlt, hmap⟩ := hvalid r (List.mem_cons_self r rest)
    cases ho : st.db.findOption r.2 with
    | none =>
      rw [ho] at hmap
      cases hmap
    | some o =>
      rw [ho] at hmap
      have hop : o.poll = pid := by simpa using hmap
      have hq : st.db.findPoll o.poll = some p := by rw [hop]; exact hp
      have hstep := castVote_alreadyVoted st r.1 uid pid r.2 hp ho hq hpe hlt hv
      show ((castVote st r.1 uid pid r.2).1
          :: (runVoteSeq (castVote st r.1 uid pid r.2).2 uid pid rest).1,
        (runVoteSeq (castVote st r.1 uid pid r.2).2 uid pid rest).2)
        = ((r :: rest).map (fun _ => VoteOutcome.alreadyVoted), st)
      rw [hstep]
      have hrest := ih st hp hpe
        (fun r2 hr2 => hvalid r2 (List.mem_cons_of_mem r hr2)) hv
      rw [hrest]
      rfl

end PollSystem

namespace PollSystem

/-- C9: every successful createPoll (views.py `perform_create`, which ends
with `cache.clear()`) empties the entire cache store in the post-state —
every poll's results snapshot, every per-user vote entry, and every cached
list page are evicted, not only cache state related to the created poll. -/
theorem createPoll_clears_entire_cache (st : State) (now : Time) (uid : Nat)
    (title description : String) (expires_at : Option Time)
    (optionTexts : List String) (pid : Nat) (st2 : State)
    (h : createPoll st now uid title description expires_at optionTexts
      = Except.ok (pid, st2)) :
    st2.cache.results = [] ∧ st2.cache.userVote = []
      ∧ st2.cache.listPages = [] := by
  unfold createPoll at h
  cases hv : validTitle title with
  | false =>
    rw [hv] at h
    simp at h
  | true =>
    rw [hv] at h
    simp only [Bool.not_true, Bool.false_eq_true, if_false,
      Except.ok.injEq, Prod.mk.injEq] at h
    rw [← h.2]
    exact ⟨rfl, rfl, rfl⟩

/-- Witness for C9: creating a poll on a state whose cache holds a results
snapshot leaves every cache segment empty. -/
theorem createPoll_clears_entire_cache_witness :
    createPoll exStateCached 3 9 ("New Poll") ("") none [("A"), ("B")]
      = Except.ok (3, cpState)
    ∧ exStateCached.cache.results ≠ []
    ∧ (cpState.cache.results = [] ∧ cpState.cache.userVote = []
        ∧ cpState.cache.listPages = []) := by
  have h : createPoll exStateCached 3 9 ("New Poll") ("") none [("A"), ("B")]
      = Except.ok (3, cpState) := by decide
  exact ⟨h, by decide,
    createPoll_clears_entire_cache exStateCached 3 9 _ _ none _ 3 cpState h⟩

/-- C6 (code bug): POST /polls and POST /polls/pk/options are meant to be
admin-only, but the `get_permissions` override (views.py lines 152-155)
guards every non-read action with IsAuthenticated alone, so an
authenticated non-admin (no staff flag, no superuser flag, role voter)
passes the permission gate for both create and options, while the
IsAdminOrReadOnly check the class declares in `permission_classes` (and
which the test suite expects to produce 403) would deny that principal. -/
theorem nonadmin_passes_create_and_options_gate :
    checkPermissions ("create") (Principal.user 7 false false ("voter")) false = true
    ∧ checkPermissions ("options") (Principal.user 7 false false ("voter")) false = true
    ∧ isAdminOrReadOnly (Principal.user 7 false false ("voter")) false = false
    ∧ declared_permission_classes.all
        (fun pc => pc.passes (Principal.user 7 false false ("voter")) false) = false := by
  decide

/-- C5 counterexample: a vote whose submitted option id resolves to no
Option fails with HTTP 400 (the serializer raises a ValidationError), not
with the 404 the claim states: on a store holding polls 1 and 2 but no
option 99, voting option 99 on poll 1 yields the option-not-found outcome
with status 400. -/
theorem vote_unknown_option_is_400_counterexample :
    (castVote exState 0 7 1 99).1 = VoteOutcome.optionNotFound
    ∧ VoteOutcome.status (castVote exState 0 7 1 99).1 = 400
    ∧ VoteOutcome.status (castVote exState 0 7 1 99).1 ≠ 404 := by
  decide

/-- C5 amended: a vote request whose option id resolves to no Option fails
with status 400 and the validation message Option not found (the state
unchanged), while a request naming a non-existent poll in the path fails
with 404. -/
theorem vote_not_found_statuses (st : State) (now : Time) (uid pid oid : Nat)
    (hopt : st.db.findOption oid = none) :
    (st.db.findPoll pid ≠ none →
      castVote st now uid pid oid = (VoteOutcome.optionNotFound, st)
      ∧ VoteOutcome.status VoteOutcome.optionNotFound = 400
      ∧ VoteOutcome.message VoteOutcome.optionNotFound = "Option not found.")
    ∧ (st.db.findPoll pid = none →
      castVote st now uid pid oid = (VoteOutcome.pathPollNotFound, st)
      ∧ VoteOutcome.status VoteOutcome.pathPollNotFound = 404) := by
  constructor
  · intro hp
    cases hfp : st.db.findPoll pid with
    | none => exact absurd hfp hp
    | some pathp =>
      refine ⟨?_, rfl, rfl⟩
      simp only [castVote, hfp, hopt]
  · intro hp
    refine ⟨?_, rfl⟩
    simp only [castVote, hp]

/-- Witness for C5 amended: concrete instances of both branches. -/
theorem vote_not_found_statuses_witness :
    exState.db.findOption 99 = none
    ∧ castVote exState 0 7 1 99 = (VoteOutcome.optionNotFound, exState)
    ∧ castVote exState 0 7 42 99 = (VoteOutcome.pathPollNotFound, exState) := by
  have h1 : exState.db.findOption 99 = none := by decide
  refine ⟨h1, ((vote_not_found_statuses exState 0 7 1 99 h1).1 (by decide)).1, ?_⟩
  have h3 : exState.db.findPoll 42 = none := by decide
  exact ((vote_not_found_statuses exState 0 7 42 99 h1).2 h3).1

/-- C10: for an authenticated requester, the `user_vote` field the results
endpoint returns is exactly the per-user cache lookup keyed by (poll,
user) — the entry castVote stores with the 30-second POLL_RESULTS_TIMEOUT —
and is never recomputed from Vote rows: when the entry is absent or
expired the field is null regardless of the stored votes. -/
theorem results_user_vote_from_cache_only (st : State) (now : Time)
    (uid pid : Nat) (r : ResultsResponse) (st2 : State)
    (h : results st now (some uid) pid = Except.ok (r, st2)) :
    r.user_vote = some (cacheGet st.cache.userVote now (pid, uid))
    ∧ (cacheGet st.cache.userVote now (pid, uid) = none → r.user_vote = some none)
    ∧ POLL_RESULTS_TIMEOUT = 30 := by
  have hmain : r.user_vote = some (cacheGet st.cache.userVote now (pid, uid)) := by
    unfold results at h
    cases hp : st.db.findPoll pid with
    | none =>
      rw [hp] at h
      cases h
    | some poll =>
      have hpid := findPoll_id hp
      simp only [hp] at h
      cases hhit : cacheGet st.cache.results now poll.id with
      | some s =>
        simp only [hhit, Except.ok.injEq, Prod.mk.injEq] at h
        rw [← h.1, ← hpid]
        rfl
      | none =>
        simp only [hhit, Except.ok.injEq, Prod.mk.injEq] at h
        rw [← h.1, ← hpid]
        rfl
  exact ⟨hmain, fun hn => by rw [hmain, hn], rfl⟩

/-- Witness for C10: on a store where user 7 has a Vote row in poll 2 but
the per-user cache entry is absent, results reports user_vote = null. -/
theorem results_user_vote_from_cache_only_witness :
    results exVotedState 0 (some 7) 2 = Except.ok (c10resp, c10st2)
    ∧ exVotedState.db.userVoteCount 7 2 = 1
    ∧ cacheGet exVotedState.cache.userVote 0 (2, 7) = none
    ∧ c10resp.user_vote = some (cacheGet exVotedState.cache.userVote 0 (2, 7))
    ∧ c10resp.user_vote = some none := by
  have h : results exVotedState 0 (some 7) 2 = Except.ok (c10resp, c10st2) := by
    decide
  have hc := results_user_vote_from_cache_only exVotedState 0 7 2 c10resp c10st2 h
  exact ⟨h, by decide, by decide, hc.1, by decide⟩

end PollSystem

namespace PollSystem

theorem exVotedState_wf : DBWF exVotedState.db := by
  constructor
  · decide
  · intro v hv
    have hv2 : v = { id := 1, user := 7, poll := 2, option := 20, timestamp := 0 } := by
      simp only [exVotedState] at hv
      simpa using hv
    subst hv2
    exact ⟨exOpt20, by decide, rfl, rfl⟩

/-- C2: for every poll, the results aggregation reports total_votes equal
to the count of all Vote rows for that poll and equal (definitionally) to
the sum of the per-option vote counts, and every Option whose poll FK is
the poll — including options with zero votes and options added at any time
— appears in the per-option list carrying its count. -/
theorem results_aggregation_correct (db : DB) (hwf : DBWF db) (p : Poll) :
    (fetch_results db p).total_votes = db.votesForPoll p.id
    ∧ (fetch_results db p).total_votes
        = ((fetch_results db p).results.map ResultRow.vote_count).sum
    ∧ (∀ o ∈ db.options, o.poll = p.id →
        serializeOption db o ∈ (fetch_results db p).results)
    ∧ (∀ o : PollOption, (serializeOption db o).vote_count
        = db.votesForOption o.id) := by
  refine ⟨fetch_results_total db hwf p, rfl, ?_, fun o => rfl⟩
  intro o ho hop
  show serializeOption db o
    ∈ (db.options.filter (fun x => x.poll == p.id)).map (serializeOption db)
  exact List.mem_map_of_mem _ (List.mem_filter.mpr ⟨ho, by simp [hop]⟩)

/-- Witness for C2: on the store where user 7 voted in poll 2, poll 2's
total matches its vote-row count (1), poll 1's total is 0, and poll 1's
zero-vote option 10 still appears in the rows with count 0. -/
theorem results_aggregation_correct_witness :
    (fetch_results exVotedState.db exPoll2).total_votes
      = exVotedState.db.votesForPoll exPoll2.id
    ∧ (fetch_results exVotedState.db exPoll2).total_votes = 1
    ∧ (fetch_results exVotedState.db exPoll1).total_votes = 0
    ∧ serializeOption exVotedState.db exOpt10
        ∈ (fetch_results exVotedState.db exPoll1).results
    ∧ (serializeOption exVotedState.db exOpt10).vote_count = 0 := by
  have hwf := exVotedState_wf
  refine ⟨(results_aggregation_correct exVotedState.db hwf exPoll2).1,
    by decide, by decide, ?_, by decide⟩
  exact (results_aggregation_correct exVotedState.db hwf exPoll1).2.2.1
    exOpt10 (by decide) (by decide)

/-- C4: once now ≥ expires_at, castVote (whose expiry is checked against
the poll owning the resolved option) and addOption fail with PollExpired —
status 400, message containing expired — leaving the store untouched;
before that instant, given valid input (existing path poll, resolvable
option, no prior vote / valid text), both succeed with 201. -/
theorem expiry_gate :
    (∀ (st : State) (now : Time) (uid pid oid : Nat) (pathp q : Poll)
        (o : PollOption) (e : Time),
      st.db.findPoll pid = some pathp →
      st.db.findOption oid = some o →
      st.db.findPoll o.poll = some q →
      q.expires_at = some e → e ≤ now →
      castVote st now uid pid oid = (VoteOutcome.pollExpired, st)
      ∧ VoteOutcome.status VoteOutcome.pollExpired = 400
      ∧ strContains (VoteOutcome.message VoteOutcome.pollExpired) ("expired") = true)
    ∧ (∀ (st : State) (now : Time) (pid : Nat) (text : String) (p : Poll) (e : Time),
      st.db.findPoll pid = some p →
      p.expires_at = some e → e ≤ now →
      addOption st now pid text = (AddOptionOutcome.pollExpired, st)
      ∧ AddOptionOutcome.status AddOptionOutcome.pollExpired = 400
      ∧ strContains (AddOptionOutcome.message AddOptionOutcome.pollExpired)
          ("expired") = true)
    ∧ (∀ (st : State) (now : Time) (uid pid oid : Nat) (pathp q : Poll)
        (o : PollOption) (e : Time),
      st.db.findPoll pid = some pathp →
      st.db.findOption oid = some o →
      st.db.findPoll o.poll = some q →
      q.expires_at = some e → now < e →
      st.db.votes.any (fun w => w.user == uid && w.poll == q.id) = false →
      (castVote st now uid pid oid).1 = VoteOutcome.created q.id o.id
      ∧ VoteOutcome.status (VoteOutcome.created q.id o.id) = 201)
    ∧ (∀ (st : State) (now : Time) (pid : Nat) (text : String) (p : Poll) (e : Time),
      st.db.findPoll pid = some p →
      p.expires_at = some e → now < e →
      validOptionText text = true →
      (addOption st now pid text).1 = AddOptionOutcome.created (freshOptionId st.db)
      ∧ AddOptionOutcome.status (AddOptionOutcome.created (freshOptionId st.db))
          = 201) := by
  refine ⟨?_, ?_, ?_, ?_⟩
  · intro st now uid pid oid pathp q o e hp ho hq he hge
    exact ⟨castVote_expired st now uid pid oid hp ho hq he hge, rfl, by decide⟩
  · intro st now pid text p e hp he hge
    exact ⟨addOption_expired st now pid text hp he hge, rfl, by decide⟩
  · intro st now uid pid oid pathp q o e hp ho hq he hlt hnv
    rw [castVote_success st now uid pid oid hp ho hq he hlt hnv]
    exact ⟨rfl, rfl⟩
  · intro st now pid text p e hp he hlt ht
    rw [addOption_success st now pid text hp he hlt ht]
    exact ⟨rfl, rfl⟩

/-- Witness for C4: the expired poll rejects both operations at instant 50
with the expired outcome and unchanged state; the active poll accepts a
vote and an option before its expiry. -/
theorem expiry_gate_witness :
    (exExpiredPoll.expires_at = some 10 ∧ 10 ≤ 50)
    ∧ castVote exExpiredState 50 7 1 10 = (VoteOutcome.pollExpired, exExpiredState)
    ∧ addOption exExpiredState 50 1 ("Late Option")
        = (AddOptionOutcome.pollExpired, exExpiredState)
    ∧ (castVote exState 0 7 1 10).1 = VoteOutcome.created 1 10
    ∧ (addOption exState 0 1 ("Extra")).1 = AddOptionOutcome.created 21 := by
  refine ⟨by decide, ?_, ?_, ?_, ?_⟩
  · exact (expiry_gate.1 exExpiredState 50 7 1 10 exExpiredPoll exExpiredPoll
      ⟨10, 1, "Choice A"⟩ 10 (by decide) (by decide) (by decide) (by decide)
      (by decide)).1
  · exact (expiry_gate.2.1 exExpiredState 50 1 ("Late Option") exExpiredPoll 10
      (by decide) (by decide) (by decide)).1
  · exact (expiry_gate.2.2.1 exState 0 7 1 10 exPoll1 exPoll1 exOpt10 1000
      (by decide) (by decide) (by decide) (by decide) (by decide) (by decide)).1
  · exact (expiry_gate.2.2.2 exState 0 1 ("Extra") exPoll1 1000
      (by decide) (by decide) (by decide) (by decide)).1

end PollSystem

namespace PollSystem

theorem results_miss_total (st : State) (now : Time) (pid : Nat) {p : Poll}
    (hp : st.db.findPoll pid = some p)
    (hmiss : cacheGet st.cache.results now p.id = none) :
    resultsTotal st now pid = some (fetch_results st.db p).total_votes := by
  unfold resultsTotal results
  simp only [hp, hmiss]

/-- C8 counterexample: as universally stated the claim fails — when the
requester has already voted in the option's poll q, the cross-poll vote is
rejected rather than succeeding: on the store where user 7 already voted
in poll 2, posting option 20 (an option of active poll 2) to
POST /polls/1/vote yields the already-voted outcome with status 400. -/
theorem cross_poll_vote_counterexample :
    exOpt20.poll = 2 ∧ (2 : Nat) ≠ 1
    ∧ (castVote exVotedState 0 7 1 20).1 = VoteOutcome.alreadyVoted
    ∧ VoteOutcome.status (castVote exVotedState 0 7 1 20).1 = 400 := by
  decide

/-- C8 amended: a vote on POST /polls/p/vote whose option belongs to a
different active poll q succeeds provided the requester has not already
voted in q; the created Vote row references q — the option's poll — while
the results-cache invalidation and the per-user vote cache entry are keyed
by the path poll p only, so q's cached results entry survives the write
unchanged. -/
theorem cross_poll_vote_keys_path_poll (st : State) (now : Time)
    (uid pid oid : Nat) (pathp q : Poll) (o : PollOption) (e : Time)
    (hpath : st.db.findPoll pid = some pathp)
    (ho : st.db.findOption oid = some o)
    (hq : st.db.findPoll o.poll = some q)
    (hqne : q.id ≠ pid)
    (he : q.expires_at = some e) (hne : now < e)
    (hnv : st.db.votes.any (fun w => w.user == uid && w.poll == q.id) = false) :
    (castVote st now uid pid oid).1 = VoteOutcome.created q.id o.id
    ∧ (castVote st now uid pid oid).2.db.votes
        = st.db.votes ++ [{ id := freshVoteId st.db, user := uid, poll := q.id,
                            option := o.id, timestamp := now }]
    ∧ (castVote st now uid pid oid).2.cache.results
        = cacheDelete st.cache.results pid
    ∧ (castVote st now uid pid oid).2.cache.userVote
        = cacheSet st.cache.userVote (pid, uid) o.id now POLL_RESULTS_TIMEOUT
    ∧ ∀ t, cacheGet (castVote st now uid pid oid).2.cache.results t q.id
        = cacheGet st.cache.results t q.id := by
  have hpid := findPoll_id hpath
  rw [castVote_success st now uid pid oid hpath ho hq he hne hnv]
  refine ⟨rfl, rfl, by rw [hpid], by rw [hpid], ?_⟩
  intro t
  show cacheGet (cacheDelete st.cache.results pathp.id) t q.id = _
  rw [hpid]
  exact cacheGet_delete_ne st.cache.results t pid q.id hqne

/-- Witness for C8 amended: the concrete cross-poll vote of option 20
(poll 2) on path poll 1 succeeds, writes the row against poll 2, deletes
poll 1's cache key, and leaves poll 2's cached snapshot in place. -/
theorem cross_poll_vote_keys_path_poll_witness :
    (castVote exStateCached 1 7 1 20).1 = VoteOutcome.created 2 20
    ∧ (castVote exStateCached 1 7 1 20).2.cache.results
        = cacheDelete exStateCached.cache.results 1
    ∧ cacheGet (castVote exStateCached 1 7 1 20).2.cache.results 2 2
        = cacheGet exStateCached.cache.results 2 2
    ∧ cacheGet exStateCached.cache.results 2 2 ≠ none := by
  have h := cross_poll_vote_keys_path_poll exStateCached 1 7 1 20 exPoll1 exPoll2
    exOpt20 1000 (by decide) (by decide) (by decide) (by decide) (by decide)
    (by decide) (by decide)
  exact ⟨h.1, h.2.2.1, h.2.2.2.2 2, by decide⟩

end PollSystem

namespace PollSystem

/-- C3 counterexample: a successful castVote does not always invalidate the
cached results of the poll whose vote counts it changed.  With poll 2's
empty snapshot cached, user 7 posts option 20 — an option of poll 2 — to
POST /polls/1/vote: the vote succeeds and poll 2 gains a vote row, yet an
immediately following results read on poll 2 still reports 0 votes from
the stale cache entry, not 1. -/
theorem vote_leaves_stale_results_counterexample :
    exStateCached.db.votesForPoll 2 = 0
    ∧ resultsTotal exStateCached 0 2 = some 0
    ∧ (castVote exStateCached 1 7 1 20).1 = VoteOutcome.created 2 20
    ∧ exStateCrossVoted.db.votesForPoll 2 = 1
    ∧ resultsTotal exStateCrossVoted 2 2 = some 0 := by
  decide

/-- C3 amended: a successful addOption always evicts the affected poll's
cached results entry after the write, and a successful castVote evicts the
request-path poll's entry — which is the affected poll exactly when the
voted option belongs to the path poll.  In those cases a results read at
any later instant recomputes from the store and reflects the write: the
reported total is the pre-vote row count plus one after a vote, and the
unchanged row count after an option addition.  (A cross-poll vote leaves
the affected poll's entry untouched; see the counterexample.) -/
theorem mutation_invalidates_path_poll_results :
    (∀ (st : State) (now t : Time) (uid pid oid : Nat) (pathp : Poll)
        (o : PollOption) (e : Time),
      DBWF st.db →
      st.db.findPoll pid = some pathp →
      st.db.findOption oid = some o →
      o.poll = pid →
      pathp.expires_at = some e → now < e →
      st.db.votes.any (fun w => w.user == uid && w.poll == pathp.id) = false →
      cacheGet (castVote st now uid pid oid).2.cache.results t pid = none
      ∧ resultsTotal (castVote st now uid pid oid).2 t pid
          = some (st.db.votesForPoll pid + 1))
    ∧ (∀ (st : State) (now t : Time) (pid : Nat) (text : String) (p : Poll)
        (e : Time),
      DBWF st.db →
      st.db.findPoll pid = some p →
      p.expires_at = some e → now < e →
      validOptionText text = true →
      cacheGet (addOption st now pid text).2.cache.results t pid = none
      ∧ resultsTotal (addOption st now pid text).2 t pid
          = some (st.db.votesForPoll pid)) := by
  constructor
  · intro st now t uid pid oid pathp o e hwf hpath ho hop he hne hnv
    have hpid := findPoll_id hpath
    have hq : st.db.findPoll o.poll = some pathp := by rw [hop]; exact hpath
    have hstep := castVote_success st now uid pid oid hpath ho hq he hne hnv
    have hgone : cacheGet (castVote st now uid pid oid).2.cache.results t pid
        = none := by
      rw [hstep]
      show cacheGet (cacheDelete st.cache.results pathp.id) t pid = none
      rw [hpid]
      exact cacheGet_delete_self st.cache.results t pid
    refine ⟨hgone, ?_⟩
    have hfind1 : (castVote st now uid pid oid).2.db.findPoll pid = some pathp := by
      rw [hstep]
      exact hpath
    have hmiss : cacheGet (castVote st now uid pid oid).2.cache.results t pathp.id
        = none := by
      rw [hpid]
      exact hgone
    rw [results_miss_total (castVote st now uid pid oid).2 t pid hfind1 hmiss]
    have hwf1 : DBWF (castVote st now uid pid oid).2.db := by
      rw [hstep]
      exact DBWF_append_vote hwf st.db.polls (findOption_mem ho) rfl
        (by rw [hop, hpid])
    rw [fetch_results_total (castVote st now uid pid oid).2.db hwf1 pathp]
    have hcnt : (castVote st now uid pid oid).2.db.votesForPoll pathp.id
        = st.db.votesForPoll pathp.id + 1 := by
      rw [hstep]
      exact votesForPoll_append st.db st.db.polls st.db.options _ pathp.id rfl
    rw [hcnt, hpid]
  · intro st now t pid text p e hwf hp he hne ht
    have hpid := findPoll_id hp
    have hstep := addOption_success st now pid text hp he hne ht
    have hgone : cacheGet (addOption st now pid text).2.cache.results t pid
        = none := by
      rw [hstep]
      show cacheGet (cacheDelete st.cache.results p.id) t pid = none
      rw [hpid]
      exact cacheGet_delete_self st.cache.results t pid
    refine ⟨hgone, ?_⟩
    have hfind1 : (addOption st now pid text).2.db.findPoll pid = some p := by
      rw [hstep]
      exact hp
    have hmiss : cacheGet (addOption st now pid text).2.cache.results t p.id
        = none := by
      rw [hpid]
      exact hgone
    rw [results_miss_total (addOption st now pid text).2 t pid hfind1 hmiss]
    have hwf1 : DBWF (addOption st now pid text).2.db := by
      rw [hstep]
      exact DBWF_append_option hwf st.db.polls (freshOptionId_not_mem st.db)
    rw [fetch_results_total (addOption st now pid text).2.db hwf1 p]
    have hcnt : (addOption st now pid text).2.db.votesForPoll p.id
        = st.db.votesForPoll p.id := by
      rw [hstep]
      rfl
    rw [hcnt, hpid]

/-- Witness for C3 amended: on the two-poll store with empty votes and
poll 1's snapshot freshly cached, a vote on poll 1's own option evicts the
key and a following read reports 1; an added option likewise evicts it and
a following read still reports 0. -/
theorem mutation_invalidates_path_poll_results_witness :
    exState.db.votesForPoll 1 = 0
    ∧ cacheGet (castVote exState 0 7 1 10).2.cache.results 1 1 = none
    ∧ resultsTotal (castVote exState 0 7 1 10).2 1 1 = some 1
    ∧ cacheGet (addOption exState 0 1 ("Extra")).2.cache.results 1 1 = none
    ∧ resultsTotal (addOption exState 0 1 ("Extra")).2 1 1 = some 0 := by
  have hwf : DBWF exState.db := by
    constructor
    · decide
    · intro v hv
      simp only [exState] at hv
      simp at hv
  have h1 := (mutation_invalidates_path_poll_results.1 exState 0 1 7 1 10 exPoll1
    exOpt10 1000 hwf (by decide) (by decide) (by decide) (by decide) (by decide)
    (by decide))
  have h2 := (mutation_invalidates_path_poll_results.2 exState 0 1 1 ("Extra")
    exPoll1 1000 hwf (by decide) (by decide) (by decide) (by decide))
  exact ⟨by decide, h1.1, h1.2, h2.1, h2.2⟩

end PollSystem

namespace PollSystem

/-- C7 counterexample: poll 1 expired at instant 10, yet at instant 1000
the list endpoint still returns it — the list queryset carries no expiry
filter, so expired polls appear. -/
theorem list_contains_expired_poll_counterexample :
    (listPolls exExpiredState 1000 1).1
      = [serializePoll exExpiredState.db exExpiredPoll]
    ∧ exExpiredPoll.expires_at = some 10 ∧ (10 : Time) ≤ 1000 := by
  refine ⟨?_, by decide, by decide⟩
  have hsort : sortByCreatedDesc exExpiredState.db.polls = [exExpiredPoll] :=
    List.mergeSort_singleton exExpiredPoll
  have hmiss : cacheGet exExpiredState.cache.listPages 1000 1 = none := rfl
  unfold listPolls
  simp only [hmiss, hsort]
  rfl

/-- C7 amended: GET /polls returns a paginated (page size 10) list of ALL
polls — expired polls included — ordered by creation time descending, each
serialized with id, title, description, creator, timestamps and options;
on a cache miss with at most one page of polls, page 1 is exactly the full
poll table in that order, so every poll (expired or not) appears. -/
theorem list_returns_all_polls (st : State) (now : Time)
    (hc : cacheGet st.cache.listPages now 1 = none)
    (hlen : st.db.polls.length ≤ PAGE_SIZE) :
    (listPolls st now 1).1
      = (sortByCreatedDesc st.db.polls).map (serializePoll st.db)
    ∧ (sortByCreatedDesc st.db.polls).Perm st.db.polls
    ∧ ∀ p ∈ st.db.polls, serializePoll st.db p ∈ (listPolls st now 1).1 := by
  have hperm : (sortByCreatedDesc st.db.polls).Perm st.db.polls :=
    List.mergeSort_perm st.db.polls _
  have hpage : pageOf (sortByCreatedDesc st.db.polls) 1
      = sortByCreatedDesc st.db.polls := by
    unfold pageOf
    have hz : (1 - 1) * PAGE_SIZE = 0 := by decide
    rw [hz, List.drop_zero]
    apply List.take_of_length_le
    rw [hperm.length_eq]
    exact hlen
  have hout : (listPolls st now 1).1
      = (sortByCreatedDesc st.db.polls).map (serializePoll st.db) := by
    unfold listPolls
    simp only [hc, hpage]
  refine ⟨hout, hperm, ?_⟩
  intro p hp
  rw [hout]
  exact List.mem_map_of_mem _ (hperm.mem_iff.mpr hp)

/-- Witness for C7 amended: on the two-poll store with an empty cache,
page 1 lists both polls (newest first) and contains poll 1's serialization. -/
theorem list_returns_all_polls_witness :
    cacheGet exState.cache.listPages 0 1 = none
    ∧ (listPolls exState 0 1).1
        = (sortByCreatedDesc exState.db.polls).map (serializePoll exState.db)
    ∧ serializePoll exState.db exPoll1 ∈ (listPolls exState 0 1).1 := by
  have h := list_returns_all_polls exState 0 (by decide) (by decide)
  exact ⟨by decide, h.1, h.2.2 exPoll1 (by decide)⟩

end PollSystem

namespace PollSystem

theorem runVoteSeq_head_spec (uid pid : Nat) (p : Poll) (e : Time) (st : State)
    (r : Time × Nat) (rest : List (Time × Nat))
    (hp : st.db.findPoll pid = some p)
    (hpe : p.expires_at = some e)
    (h0 : st.db.userVoteCount uid pid = 0)
    (hvalid : ∀ r2 ∈ r :: rest, r2.1 < e ∧
      (st.db.findOption r2.2).map PollOption.poll = some pid) :
    ∃ x, runVoteSeq st uid pid (r :: rest)
      = (VoteOutcome.created pid x :: rest.map (fun _ => VoteOutcome.alreadyVoted),
         (castVote st r.1 uid pid r.2).2)
      ∧ (castVote st r.1 uid pid r.2).2.db.userVoteCount uid pid = 1 := by
  obtain ⟨hlt, hmap⟩ := hvalid r (List.mem_cons_self r rest)
  cases ho : st.db.findOption r.2 with
  | none =>
    rw [ho] at hmap
    cases hmap
  | some o =>
    rw [ho] at hmap
    have hop : o.poll = pid := by simpa using hmap
    have hq : st.db.findPoll o.poll = some p := by rw [hop]; exact hp
    have hpid := findPoll_id hp
    have hnv : st.db.votes.any (fun w => w.user == uid && w.poll == p.id)
        = false := by
      rw [hpid]
      exact userVoteCount_zero_any_false h0
    have hstep := castVote_success st r.1 uid pid r.2 hp ho hq hpe hlt hnv
    have hfind1 : (castVote st r.1 uid pid r.2).2.db.findPoll pid = some p := by
      rw [hstep]
      exact hp
    have hvalid1 : ∀ r2 ∈ rest, r2.1 < e ∧
        ((castVote st r.1 uid pid r.2).2.db.findOption r2.2).map PollOption.poll
          = some pid := by
      intro r2 hr2
      rw [hstep]
      exact hvalid r2 (List.mem_cons_of_mem r hr2)
    have hany1 : (castVote st r.1 uid pid r.2).2.db.votes.any
        (fun w => w.user == uid && w.poll == p.id) = true := by
      rw [hstep]
      show (st.db.votes ++ [_]).any _ = true
      rw [List.any_append]
      simp
    have hrest := runVoteSeq_all_already uid pid p e rest
      (castVote st r.1 uid pid r.2).2 hfind1 hpe hvalid1 hany1
    have hcount1 : (castVote st r.1 uid pid r.2).2.db.userVoteCount uid pid
        = 1 := by
      rw [hstep]
      show DB.userVoteCount
        (DB.mk st.db.polls st.db.options (st.db.votes ++ [_])) uid pid = 1
      rw [userVoteCount_append_match st.db st.db.polls st.db.options _ uid pid
        rfl hpid, h0]
    refine ⟨o.id, ?_, hcount1⟩
    show ((castVote st r.1 uid pid r.2).1
        :: (runVoteSeq (castVote st r.1 uid pid r.2).2 uid pid rest).1,
      (runVoteSeq (castVote st r.1 uid pid r.2).2 uid pid rest).2) = _
    rw [hrest, hstep, hpid]

/-- C1: starting from any store in which user `uid` has no Vote row for
poll `pid`, after any sequence of castVote requests by `uid` whose options
belong to the (active) poll, at most one Vote row exists for (uid, pid) —
exactly one when the sequence is non-empty; the first request returns the
created outcome (201) and every subsequent request returns alreadyVoted
(400, message containing already voted), the duplicate being refused by
the storage-level insert (`DB.insertVote`, the unique (user, poll)
constraint) whose rejection the serializer translates, there being no
preceding existence check in the validate step. -/
theorem vote_uniqueness (st : State) (uid pid : Nat) (p : Poll) (e : Time)
    (reqs : List (Time × Nat))
    (hp : st.db.findPoll pid = some p)
    (hpe : p.expires_at = some e)
    (h0 : st.db.userVoteCount uid pid = 0)
    (hvalid : ∀ r ∈ reqs, r.1 < e ∧
      (st.db.findOption r.2).map PollOption.poll = some pid) :
    (runVoteSeq st uid pid reqs).2.db.userVoteCount uid pid = min reqs.length 1
    ∧ (∀ out, (runVoteSeq st uid pid reqs).1.head? = some out →
        ∃ x, out = VoteOutcome.created pid x ∧ VoteOutcome.status out = 201)
    ∧ (∀ out ∈ (runVoteSeq st uid pid reqs).1.tail,
        out = VoteOutcome.alreadyVoted
        ∧ VoteOutcome.status out = 400
        ∧ strContains (VoteOutcome.message out) ("already voted") = true) := by
  cases reqs with
  | nil =>
    refine ⟨?_, ?_, ?_⟩
    · show st.db.userVoteCount uid pid = min 0 1
      rw [h0]
      omega
    · intro out hout
      cases hout
    · intro out hout
      cases hout
  | cons r rest =>
    obtain ⟨x, hpair, hcount⟩ :=
      runVoteSeq_head_spec uid pid p e st r rest hp hpe h0 hvalid
    refine ⟨?_, ?_, ?_⟩
    · rw [hpair]
      show (castVote st r.1 uid pid r.2).2.db.userVoteCount uid pid
        = min (r :: rest).length 1
      rw [hcount]
      simp only [List.length_cons]
      omega
    · intro out hout
      rw [hpair] at hout
      simp only [List.head?_cons, Option.some.injEq] at hout
      refine ⟨x, hout.symm, ?_⟩
      rw [← hout]
      rfl
    · intro out hout
      rw [hpair] at hout
      simp only [List.tail_cons] at hout
      obtain ⟨_, _, heq⟩ := List.mem_map.mp hout
      refine ⟨heq.symm, ?_, ?_⟩
      · rw [← heq]
        rfl
      · rw [← heq]
        decide

/-- Witness for C1: three requests by user 7 against active poll 1 (options
10, 11, 10): the first succeeds, the second and third are rejected as
duplicates, and exactly one Vote row for (7, 1) remains. -/
theorem vote_uniqueness_witness :
    exState.db.userVoteCount 7 1 = 0
    ∧ (runVoteSeq exState 7 1 [(0, 10), (1, 11), (2, 10)]).1
        = [VoteOutcome.created 1 10, VoteOutcome.alreadyVoted,
           VoteOutcome.alreadyVoted]
    ∧ (runVoteSeq exState 7 1 [(0, 10), (1, 11), (2, 10)]).2.db.userVoteCount 7 1
        = 1 := by
  have h := vote_uniqueness exState 7 1 exPoll1 1000 [(0, 10), (1, 11), (2, 10)]
    (by decide) (by decide) (by decide) (by decide)
  refine ⟨by decide, by decide, ?_⟩
  have h1 := h.1
  simpa using h1

end PollSystem
